import Mathlib

/-! Verification development for the aipes repository, file
src/aipes/neb/parallel.py.  The Python module drives an active-learning
nudged-elastic-band (AI-NEB) loop: a coordinator (MPI rank 0) trains an Amp
surrogate calculator on a training set, publishes only the calculator label,
every rank (the coordinator included) reloads the calculator from the
persisted artifact, all ranks jointly relax a path whose interior node
number r + 1 is owned by rank r, the coordinator gathers copies of the
interior nodes, validates them against a reference calculator and decides
whether to stop (converged or exhausted) or to augment the training set and
continue.

External collaborators (the Amp training algorithm, the ASE NEB and BFGS
relaxation step rule, the reference first-principles physics, and the
benchmark RMSE and max-residual computations of aipes.common.benchmark,
which is not part of the sources under verification) are modelled as
function-valued fields of an Env record; the loop logic itself is
translated line by line from run_aineb, initialize_mep and validate_mep. -/

namespace Aipes

/-- A surrogate (Amp) calculator value, abstract apart from equality. -/
structure AmpModel where
  params : List Int
deriving DecidableEq, Repr

/-- A calculator attached to an ASE Atoms object.  ASE stores computed
energies and forces inside the calculator, not inside the atoms; a ref
calculator carries an instance id (each call of the gen_calc_ref factory
yields a fresh instance) and its cached results, an amp calculator carries
the loaded surrogate model. -/
inductive Calc where
  | amp (model : AmpModel)
  | ref (id : Nat) (results : Option (Int × List Int))
deriving DecidableEq, Repr

/-- An ASE Atoms object: species and topology descriptor, geometry, and the
optionally attached calculator. -/
structure Atoms where
  species : List Nat
  positions : List Int
  calculator : Option Calc
deriving DecidableEq, Repr

/-- ASE Atoms.copy(): geometry and species are kept, the calculator (and
with it every stored energy and force label) is dropped. -/
def Atoms.copy (a : Atoms) : Atoms :=
  { a with calculator := none }

/-- The empty Atoms value, used as the out-of-range default of list reads
inside concrete test environments. -/
def emptyAtoms : Atoms :=
  { species := [], positions := [], calculator := none }

/-- An Atoms object counts as reference-labeled when a reference calculator
holding computed results is attached. -/
def isRefLabeled (a : Atoms) : Bool :=
  match a.calculator with
  | some (Calc.ref _ (some _)) => true
  | _ => false

/-- The instance id of the attached reference calculator, when there is one. -/
def refCalcId (a : Atoms) : Option Nat :=
  match a.calculator with
  | some (Calc.ref i _) => some i
  | _ => none

/-- Two configurations are structurally compatible when they share the
species and topology descriptor. -/
def compatible (a b : Atoms) : Bool :=
  a.species == b.species

/-- The convergence dictionary passed to run_aineb: four metric thresholds
and the iteration bound. -/
structure Convergence where
  energy_rmse : ℚ
  energy_maxresid : ℚ
  force_rmse : ℚ
  force_maxresid : ℚ
  max_iteration : Nat
deriving DecidableEq, Repr

/-- The neb_args dictionary passed to run_aineb. -/
structure NebArgs where
  climb : Bool
  method : String
  interp : String
  fmax : ℚ
  steps : Nat
deriving DecidableEq, Repr

/-- The accuracy dictionary produced by validate_mep, in its Python
insertion order: energy_rmse, energy_maxresid, force_rmse, force_maxresid. -/
structure Accuracy where
  energy_rmse : ℚ
  energy_maxresid : ℚ
  force_rmse : ℚ
  force_maxresid : ℚ
deriving DecidableEq, Repr

/-- Terminal outcome of a run: the loop broke out converged, or the
iteration counter reached max_iteration. -/
inductive Outcome where
  | Converged
  | Exhausted
deriving DecidableEq, Repr

/-- Fatal startup errors of run_aineb.  The assert size == num_inter_images
fires before any iteration is executed. -/
inductive RunError where
  | ConfigurationMismatch
deriving DecidableEq, Repr

/-- The external collaborators of the loop, out of scope of the spec and
supplied by the caller: the Amp training algorithm together with its
persist-to-disk and load-from-disk halves, the joint NEB relaxation (the
final position of one owned node as a function of the seed path and the neb
arguments, covering NEB construction, interpolation and the BFGS run), the
reference first-principles physics, and the two benchmark routines of
aipes.common.benchmark that turn a surrogate and a reference-labeled image
list into (rmse, maxresid) pairs. -/
structure Env where
  ampLabel : String
  train : List Atoms → AmpModel
  persist : AmpModel → List Int
  loadModel : List Int → AmpModel
  optNode : NebArgs → List Atoms → Nat → Atoms
  refEval : Atoms → Int × List Int
  validate_energy : AmpModel → List Atoms → ℚ × ℚ
  validate_forces : AmpModel → List Atoms → ℚ × ℚ

/-- initialize_mep of parallel.py: the seed path is the initial image, then
num_inter_images unlabeled copies of the initial image (geometry only, the
calculator is dropped by Atoms.copy), then the final image.  A pure
construction with no side effects. -/
def initialize_mep (initial_image final_image : Atoms)
    (num_inter_images : Nat) : List Atoms :=
  initial_image :: (List.replicate num_inter_images initial_image.copy ++ [final_image])

/-- One pass of the body of the validate_mep loop: image_copy = image.copy()
drops the old calculator, a freshly instantiated reference calculator (its
instance id) is attached, get_forces and get_potential_energy fill it with
the reference results for the copied geometry. -/
def refLabelImage (env : Env) (id : Nat) (image : Atoms) : Atoms :=
  { image.copy with calculator := some (Calc.ref id (some (env.refEval image.copy))) }

/-- The validate_mep loop over the passed images: each image receives its
own fresh reference calculator instance; the fresh-instance counter starts
at id and advances by one per image. -/
def labelImages (env : Env) (id : Nat) : List Atoms → List Atoms
  | [] => []
  | image :: rest => refLabelImage env id image :: labelImages env (id + 1) rest

/-- validate_mep of parallel.py.  nextRefId is the id the next fresh
reference-calculator instance would get, so the returned counter minus the
passed one counts the gen_calc_ref factory invocations.  The accuracy
dictionary is filled from validate_energy and validate_forces applied to
the Amp calculator and the freshly reference-labeled images. -/
def validate_mep (env : Env) (mep : List Atoms) (calc_amp : AmpModel)
    (nextRefId : Nat) : Accuracy × List Atoms × Nat :=
  let ref_images := labelImages env nextRefId mep
  let e := env.validate_energy calc_amp ref_images
  let f := env.validate_forces calc_amp ref_images
  ({ energy_rmse := e.1, energy_maxresid := e.2,
     force_rmse := f.1, force_maxresid := f.2 },
   ref_images, nextRefId + mep.length)

/-- The inputs run_aineb reads once at startup: the MPI world size, the two
endpoint images (read from initial_file and final_file with index -1), the
training trajectory, the intermediate image count and the two argument
dictionaries. -/
structure Inputs where
  size : Nat
  initial_image : Atoms
  final_image : Atoms
  train0 : List Atoms
  num_inter_images : Nat
  conv : Convergence
  neb_args : NebArgs

/-- The coordinator state carried from one main-loop iteration to the next:
the training set and the counter of reference-calculator instances created
so far. -/
structure LoopState where
  train_set : List Atoms
  nextRefId : Nat
deriving DecidableEq, Repr

/-- Every intermediate value of one iteration of the run_aineb main loop,
recorded so that each can be reasoned about: the label broadcast after
training, the persisted artifact, the model every rank loads from it, the
seed path built and broadcast this iteration, the path with the owned-node
calculators attached, the gathered interior-node copies, the validation
output, the per-metric pass list, the convergence flag, and the training
set and fresh-id counter the next iteration would start from. -/
structure IterResult where
  broadcastLabel : String
  artifact : List Int
  rankModels : List AmpModel
  calc_amp : AmpModel
  seedMep : List Atoms
  mepWithCalc : List Atoms
  gathered : List Atoms
  accuracy : Accuracy
  ref_images : List Atoms
  converge_status : List Bool
  converged : Bool
  train_set' : List Atoms
  nextRefId' : Nat
deriving DecidableEq, Repr

/-- The per-rank statement mep[rank + 1].set_calculator(calc_amp), seen
globally: with ranks 0 .. size - 1, exactly the path indices 1 .. size
receive the loaded Amp calculator. -/
def attachOwned (mep : List Atoms) (m : AmpModel) (size : Nat) : List Atoms :=
  mep.enum.map fun p =>
    if 1 ≤ p.1 ∧ p.1 ≤ size then { p.2 with calculator := some (Calc.amp m) } else p.2

/-- One iteration of the run_aineb main loop, translated statement by
statement.  Rank 0 trains a fresh Amp calculator on the current training
set with overwrite := true (training persists the artifact under the
calculator label); only the label is broadcast; every rank, rank 0
included, rebinds calc_amp to Amp.load of the artifact.  Rank 0 then builds
the seed path with initialize_mep and broadcasts it — this happens inside
the loop, on every iteration.  Each rank attaches the loaded calculator to
the one node it owns, the joint NEB plus BFGS relaxation runs, and the
coordinator gathers mep[rank + 1].copy() from every rank in rank order.
Rank 0 validates the gathered nodes, forms the pass list in the accuracy
dictionary insertion order, and broadcasts it.  On convergence the loop
breaks before touching the training set; otherwise the freshly labeled
images are appended to it (and the augmented set persisted). -/
def iterate (env : Env) (inp : Inputs) (s : LoopState) : IterResult :=
  let trained := env.train s.train_set
  let label := env.ampLabel
  let artifact := env.persist trained
  let rankModels := (List.range inp.size).map fun _ => env.loadModel artifact
  let calc_amp := env.loadModel artifact
  let mep := initialize_mep inp.initial_image inp.final_image inp.num_inter_images
  let mepC := attachOwned mep calc_amp inp.size
  let gathered := (List.range inp.size).map fun r =>
    Atoms.copy (env.optNode inp.neb_args mepC (r + 1))
  let v := validate_mep env gathered calc_amp s.nextRefId
  let accuracy := v.1
  let ref_images := v.2.1
  let converge_status :=
    [decide (accuracy.energy_rmse ≤ inp.conv.energy_rmse),
     decide (accuracy.energy_maxresid ≤ inp.conv.energy_maxresid),
     decide (accuracy.force_rmse ≤ inp.conv.force_rmse),
     decide (accuracy.force_maxresid ≤ inp.conv.force_maxresid)]
  let converged := decide (converge_status = [true, true, true, true])
  { broadcastLabel := label
    artifact := artifact
    rankModels := rankModels
    calc_amp := calc_amp
    seedMep := mep
    mepWithCalc := mepC
    gathered := gathered
    accuracy := accuracy
    ref_images := ref_images
    converge_status := converge_status
    converged := converged
    train_set' := if converged = true then s.train_set else s.train_set ++ ref_images
    nextRefId' := v.2.2 }

/-- The loop state the next iteration starts from. -/
def nextState (env : Env) (inp : Inputs) (s : LoopState) : LoopState :=
  { train_set := (iterate env inp s).train_set',
    nextRefId := (iterate env inp s).nextRefId' }

/-- The loop state after k non-breaking iterations starting from s. -/
def advance (env : Env) (inp : Inputs) : LoopState → Nat → LoopState
  | s, 0 => s
  | s, k + 1 => advance env inp (nextState env inp s) k

/-- What the main loop leaves behind: the break flag, the number of
iterations that executed, the final coordinator state, and the rank-0
ref_images variable as it stands after the loop (the last iteration's
validated images; the empty list when no iteration ran). -/
structure LoopOut where
  is_converged : Bool
  iters : Nat
  state : LoopState
  ref_images : List Atoms
deriving DecidableEq, Repr

/-- The main loop of run_aineb: for iteration in range(max_iteration), run
one iteration, break when the broadcast pass list is all true, otherwise
continue from the augmented state. -/
def run_loop (env : Env) (inp : Inputs) : Nat → LoopState → LoopOut
  | 0, s => { is_converged := false, iters := 0, state := s, ref_images := [] }
  | fuel + 1, s =>
    if (iterate env inp s).converged = true then
      { is_converged := true, iters := 1, state := nextState env inp s,
        ref_images := (iterate env inp s).ref_images }
    else
      { is_converged := (run_loop env inp fuel (nextState env inp s)).is_converged,
        iters := (run_loop env inp fuel (nextState env inp s)).iters + 1,
        state := (run_loop env inp fuel (nextState env inp s)).state,
        ref_images :=
          if (run_loop env inp fuel (nextState env inp s)).iters = 0 then
            (iterate env inp s).ref_images
          else (run_loop env inp fuel (nextState env inp s)).ref_images }

/-- The coordinator state the loop starts from: the training trajectory as
read, and no reference-calculator instance created yet. -/
def initState (inp : Inputs) : LoopState :=
  { train_set := inp.train0, nextRefId := 0 }

/-- What a completed run leaves behind: the outcome, how many iterations
executed, the final training set, and the contents of mep.traj when that
file was written (none when it was not). -/
structure RunResult where
  outcome : Outcome
  itersExecuted : Nat
  train_set : List Atoms
  mepFile : Option (List Atoms)
deriving DecidableEq, Repr

/-- run_aineb of parallel.py: the startup assert size == num_inter_images
(failing it aborts before any file is read and before any iteration runs),
the main loop, and the summary that writes mep.traj, built as the initial
image, then the last validated ref_images, then the final image, exactly
when the loop converged. -/
def run_aineb (env : Env) (inp : Inputs) : Except RunError RunResult :=
  if inp.size = inp.num_inter_images then
    Except.ok
      { outcome :=
          if (run_loop env inp inp.conv.max_iteration (initState inp)).is_converged then
            Outcome.Converged
          else Outcome.Exhausted,
        itersExecuted := (run_loop env inp inp.conv.max_iteration (initState inp)).iters,
        train_set := (run_loop env inp inp.conv.max_iteration (initState inp)).state.train_set,
        mepFile :=
          if (run_loop env inp inp.conv.max_iteration (initState inp)).is_converged then
            some (inp.initial_image ::
              ((run_loop env inp inp.conv.max_iteration (initState inp)).ref_images ++
                [inp.final_image]))
          else none }
  else Except.error RunError.ConfigurationMismatch

/-- All four accuracy metrics pass their thresholds. -/
def metricsOk (a : Accuracy) (c : Convergence) : Prop :=
  a.energy_rmse ≤ c.energy_rmse ∧ a.energy_maxresid ≤ c.energy_maxresid ∧
  a.force_rmse ≤ c.force_rmse ∧ a.force_maxresid ≤ c.force_maxresid

/-- The accuracy report the k-th iteration (counting from 0) of a run
computes, along the trajectory on which no earlier iteration broke out. -/
def accuracyAt (env : Env) (inp : Inputs) (k : Nat) : Accuracy :=
  (iterate env inp (advance env inp (initState inp) k)).accuracy

/-- A fully labeled initial endpoint image for the concrete test runs. -/
def cInitial : Atoms :=
  { species := [1], positions := [0], calculator := some (Calc.ref 100 (some (2, [3]))) }

/-- A fully labeled final endpoint image for the concrete test runs. -/
def cFinal : Atoms :=
  { species := [1], positions := [7], calculator := some (Calc.ref 101 (some (4, [5]))) }

/-- A concrete environment for witnesses: training records the training-set
size, persisting and loading round-trip the parameters, the relaxation
shifts the owned node by one, the reference physics sums the coordinates,
and both benchmark routines report zero error. -/
def cEnv : Env :=
  { ampLabel := "amp",
    train := fun ts => { params := [Int.ofNat ts.length] },
    persist := fun m => m.params,
    loadModel := fun d => { params := d },
    optNode := fun _ mep i =>
      { mep.getD i emptyAtoms with
        positions := (mep.getD i emptyAtoms).positions.map fun x => x + 1 },
    refEval := fun a => (a.positions.foldl (fun x y => x + y) 0, a.positions),
    validate_energy := fun _ _ => (0, 0),
    validate_forces := fun _ _ => (0, 0) }

/-- Concrete inputs on which the run converges in its first iteration: one
worker, one interior node, thresholds 1 against zero reported error. -/
def cInp : Inputs :=
  { size := 1, initial_image := cInitial, final_image := cFinal,
    train0 := [cInitial], num_inter_images := 1,
    conv := { energy_rmse := 1, energy_maxresid := 1, force_rmse := 1,
              force_maxresid := 1, max_iteration := 1 },
    neb_args := { climb := false, method := "aseneb", interp := "idpp",
                  fmax := 1 / 20, steps := 100 } }

/-- Concrete inputs on which no iteration ever converges: thresholds -1
against zero reported error, two iterations allowed. -/
def cInp2 : Inputs :=
  { size := 1, initial_image := cInitial, final_image := cFinal,
    train0 := [cInitial], num_inter_images := 1,
    conv := { energy_rmse := -1, energy_maxresid := -1, force_rmse := -1,
              force_maxresid := -1, max_iteration := 2 },
    neb_args := { climb := false, method := "aseneb", interp := "idpp",
                  fmax := 1 / 20, steps := 100 } }

/-- Concrete inputs whose worker count 3 does not match the interior node
count 2. -/
def cInpBad : Inputs :=
  { size := 3, initial_image := cInitial, final_image := cFinal,
    train0 := [cInitial], num_inter_images := 2,
    conv := { energy_rmse := 1, energy_maxresid := 1, force_rmse := 1,
              force_maxresid := 1, max_iteration := 1 },
    neb_args := { climb := false, method := "aseneb", interp := "idpp",
                  fmax := 1 / 20, steps := 100 } }

/-- The run result of the converging concrete run. -/
def cRes : RunResult :=
  (Except.toOption (run_aineb cEnv cInp)).get (by decide)

/-- The labeled image list is as long as the input list. -/
theorem labelImages_length (env : Env) :
    ∀ (l : List Atoms) (i : Nat), (labelImages env i l).length = l.length := by
  intro l
  induction l with
  | nil => intro i; rfl
  | cons a t iht => intro i; simp [labelImages, iht]

/-- The j-th labeled image is the label of the j-th input image, under the
fresh-instance id i + j. -/
theorem labelImages_getElem? (env : Env) :
    ∀ (l : List Atoms) (i j : Nat),
      (labelImages env i l)[j]? = (l[j]?).map fun a => refLabelImage env (i + j) a := by
  intro l
  induction l with
  | nil => intro i j; simp [labelImages]
  | cons a t iht =>
    intro i j
    cases j with
    | zero => simp [labelImages]
    | succ j' =>
      have h1 : i + 1 + j' = i + (j' + 1) := by omega
      simp only [labelImages, List.getElem?_cons_succ]
      rw [iht (i + 1) j', h1]

/-- Every image the validation loop produces carries a reference calculator
filled with results. -/
theorem labelImages_refLabeled (env : Env) :
    ∀ (l : List Atoms) (i : Nat) (a : Atoms),
      a ∈ labelImages env i l → isRefLabeled a = true := by
  intro l
  induction l with
  | nil => intro i a h; simp [labelImages] at h
  | cons b t iht =>
    intro i a h
    rcases (List.mem_cons).mp h with h0 | h1
    · rw [h0]; rfl
    · exact iht (i + 1) a h1

/-- The seed path every iteration starts from is rebuilt by initialize_mep. -/
theorem iterate_seedMep (env : Env) (inp : Inputs) (s : LoopState) :
    (iterate env inp s).seedMep =
      initialize_mep inp.initial_image inp.final_image inp.num_inter_images := rfl

/-- The gathered list is the rank-ordered list of copies of the owned,
relaxed interior nodes. -/
theorem iterate_gathered (env : Env) (inp : Inputs) (s : LoopState) :
    (iterate env inp s).gathered = (List.range inp.size).map fun r =>
      Atoms.copy (env.optNode inp.neb_args (iterate env inp s).mepWithCalc (r + 1)) := rfl

/-- One node copy is gathered per rank. -/
theorem iterate_gathered_length (env : Env) (inp : Inputs) (s : LoopState) :
    (iterate env inp s).gathered.length = inp.size := by
  rw [iterate_gathered]
  simp

/-- The validated images of an iteration are the labeled copies of the
gathered nodes, with fresh ids starting at the carried counter. -/
theorem iterate_ref_images (env : Env) (inp : Inputs) (s : LoopState) :
    (iterate env inp s).ref_images =
      labelImages env s.nextRefId (iterate env inp s).gathered := rfl

/-- Exactly one reference-calculator instance per gathered node is created
in an iteration. -/
theorem iterate_nextRefId (env : Env) (inp : Inputs) (s : LoopState) :
    (iterate env inp s).nextRefId' = s.nextRefId + (iterate env inp s).gathered.length := rfl

/-- The training set an iteration hands to the next one: untouched on
convergence (the loop breaks first), augmented by the validated images
otherwise. -/
theorem iterate_train_set (env : Env) (inp : Inputs) (s : LoopState) :
    (iterate env inp s).train_set' =
      if (iterate env inp s).converged = true then s.train_set
      else s.train_set ++ (iterate env inp s).ref_images := rfl

/-- The convergence flag of an iteration is exactly the conjunction of the
four threshold comparisons of its accuracy report. -/
theorem iterate_converged_iff (env : Env) (inp : Inputs) (s : LoopState) :
    (iterate env inp s).converged = true ↔
      metricsOk (iterate env inp s).accuracy inp.conv := by
  have h : (iterate env inp s).converged = decide
      ([decide ((iterate env inp s).accuracy.energy_rmse ≤ inp.conv.energy_rmse),
        decide ((iterate env inp s).accuracy.energy_maxresid ≤ inp.conv.energy_maxresid),
        decide ((iterate env inp s).accuracy.force_rmse ≤ inp.conv.force_rmse),
        decide ((iterate env inp s).accuracy.force_maxresid ≤ inp.conv.force_maxresid)] =
        [true, true, true, true]) := rfl
  rw [h]
  simp [metricsOk]

/-- Stepping the advanced state once more advances it at the end. -/
theorem advance_succ (env : Env) (inp : Inputs) :
    ∀ (k : Nat) (s : LoopState),
      advance env inp s (k + 1) = nextState env inp (advance env inp s k) := by
  intro k
  induction k with
  | zero => intro s; rfl
  | succ j ihj => intro s; exact ihj (nextState env inp s)

/-- The main loop, characterized: it executes at most fuel iterations; when
it does not break out it executes exactly fuel of them; it breaks out
converged exactly when some iteration within the fuel bound converges; and
on a converged run the surviving ref_images are those of the converging
iteration, which is the earliest converging one and the last to execute. -/
theorem run_loop_spec (env : Env) (inp : Inputs) :
    ∀ (fuel : Nat) (s : LoopState),
      (run_loop env inp fuel s).iters ≤ fuel ∧
      ((run_loop env inp fuel s).is_converged = false →
        (run_loop env inp fuel s).iters = fuel) ∧
      ((run_loop env inp fuel s).is_converged = true ↔
        ∃ k, k < fuel ∧ (iterate env inp (advance env inp s k)).converged = true) ∧
      ((run_loop env inp fuel s).is_converged = true →
        ∃ k, k < fuel ∧ (iterate env inp (advance env inp s k)).converged = true ∧
          (run_loop env inp fuel s).ref_images =
            (iterate env inp (advance env inp s k)).ref_images ∧
          (run_loop env inp fuel s).iters = k + 1) := by
  intro fuel
  induction fuel with
  | zero =>
    intro s
    refine ⟨Nat.le_refl 0, fun _ => rfl, ?_, ?_⟩
    · constructor
      · intro h; simp [run_loop] at h
      · intro h; rcases h with ⟨k, hk, _⟩; omega
    · intro h; simp [run_loop] at h
  | succ n ih =>
    intro s
    by_cases hc : (iterate env inp s).converged = true
    · have hrl : run_loop env inp (n + 1) s =
          { is_converged := true, iters := 1, state := nextState env inp s,
            ref_images := (iterate env inp s).ref_images } := by
        simp [run_loop, hc]
      rw [hrl]
      dsimp only
      refine ⟨by omega, by intro h; exact absurd h (by simp), ?_, ?_⟩
      · constructor
        · intro _; exact ⟨0, by omega, hc⟩
        · intro _; rfl
      · intro _; exact ⟨0, by omega, hc, rfl, rfl⟩
    · have hc0 : (iterate env inp s).converged = false := by
        revert hc; cases (iterate env inp s).converged <;> simp
      have hrl : run_loop env inp (n + 1) s =
          { is_converged := (run_loop env inp n (nextState env inp s)).is_converged,
            iters := (run_loop env inp n (nextState env inp s)).iters + 1,
            state := (run_loop env inp n (nextState env inp s)).state,
            ref_images :=
              if (run_loop env inp n (nextState env inp s)).iters = 0 then
                (iterate env inp s).ref_images
              else (run_loop env inp n (nextState env inp s)).ref_images } := by
        simp [run_loop, hc0]
      obtain ⟨ih1, ih2, ih3, ih4⟩ := ih (nextState env inp s)
      rw [hrl]
      dsimp only
      refine ⟨by omega, by intro h; rw [ih2 h], ?_, ?_⟩
      · constructor
        · intro h
          rcases ih3.mp h with ⟨k, hk, hkc⟩
          exact ⟨k + 1, by omega, hkc⟩
        · intro h
          rcases h with ⟨k, hk, hkc⟩
          cases k with
          | zero =>
            have hkc0 : (iterate env inp s).converged = true := hkc
            rw [hc0] at hkc0
            exact absurd hkc0 (by simp)
          | succ j => exact ih3.mpr ⟨j, by omega, hkc⟩
      · intro h
        rcases ih4 h with ⟨k, hk, hkc, href, hit⟩
        have hadv : advance env inp s (k + 1) = advance env inp (nextState env inp s) k := rfl
        refine ⟨k + 1, by omega, hkc, ?_, by omega⟩
        rw [hit, hadv]
        simp [href]

/-- The reference-calculator instance id attached to the j-th validated
image is the j-th fresh id after the passed counter. -/
theorem validate_mep_calcId (env : Env) (mep : List Atoms) (m0 : AmpModel)
    (id0 j : Nat) (hj : j < mep.length) :
    ((validate_mep env mep m0 id0).2.1[j]?).bind refCalcId = some (id0 + j) := by
  have h1 : (validate_mep env mep m0 id0).2.1 = labelImages env id0 mep := rfl
  rw [h1, labelImages_getElem? env mep id0 j, List.getElem?_eq_getElem hj]
  rfl

/-- C6: when the number of cooperating processes differs from the number of
interior nodes, run_aineb fails with the fatal configuration error of its
startup assert; the error branch is taken before any training, optimization
or validation, so no iteration executes. -/
theorem run_aineb_size_mismatch (env : Env) (inp : Inputs)
    (h : inp.size ≠ inp.num_inter_images) :
    run_aineb env inp = Except.error RunError.ConfigurationMismatch := by
  unfold run_aineb
  rw [if_neg h]

/-- Witness for C6: three workers against two interior nodes fail at
startup. -/
theorem run_aineb_size_mismatch_witness :
    run_aineb cEnv cInpBad = Except.error RunError.ConfigurationMismatch :=
  run_aineb_size_mismatch cEnv cInpBad (by decide)

/-- C7: for structurally compatible endpoints and any n, initialize_mep
returns a path of length n + 2 whose node 0 is the initial image, whose
node n + 1 is the final image, and whose n interior nodes are unlabeled
copies of the initial image: the geometry and species are kept and the
calculator (hence every label) is discarded.  The construction is a pure
function. -/
theorem initialize_mep_spec (i f : Atoms) (n : Nat) (_h : compatible i f = true) :
    (initialize_mep i f n).length = n + 2 ∧
    (initialize_mep i f n)[0]? = some i ∧
    (initialize_mep i f n)[n + 1]? = some f ∧
    ∀ k, k < n → (initialize_mep i f n)[k + 1]? = some i.copy ∧
      i.copy.calculator = none ∧ i.copy.species = i.species ∧
      i.copy.positions = i.positions := by
  refine ⟨?_, by simp [initialize_mep], ?_, ?_⟩
  · simp [initialize_mep]
  · simp [initialize_mep, List.getElem?_append_right]
  · intro k hk
    refine ⟨?_, rfl, rfl, rfl⟩
    simp [initialize_mep, List.getElem?_append, hk]

/-- Witness for C7: two compatible concrete endpoints and two interior
nodes. -/
theorem initialize_mep_spec_witness :
    (initialize_mep cInitial cFinal 2).length = 2 + 2 ∧
    (initialize_mep cInitial cFinal 2)[0]? = some cInitial ∧
    (initialize_mep cInitial cFinal 2)[2 + 1]? = some cFinal ∧
    ∀ k, k < 2 → (initialize_mep cInitial cFinal 2)[k + 1]? = some cInitial.copy ∧
      cInitial.copy.calculator = none ∧ cInitial.copy.species = cInitial.species ∧
      cInitial.copy.positions = cInitial.positions :=
  initialize_mep_spec cInitial cFinal 2 (by decide)

/-- C8: validate_mep invokes the reference-calculator factory exactly once
per input node (the fresh-instance counter advances by the input length),
returns exactly as many reference-labeled images as it was given nodes, in
input order (the j-th output is the labeled copy of the j-th input, with
its geometry and species), and attaches a distinct, freshly instantiated
reference calculator to each copy: the j-th copy holds instance id0 + j,
and copies at different positions never share an instance. -/
theorem validate_mep_spec (env : Env) (mep : List Atoms) (m0 : AmpModel)
    (id0 j : Nat) (hj : j < mep.length) :
    (validate_mep env mep m0 id0).2.2 = id0 + mep.length ∧
    (validate_mep env mep m0 id0).2.1.length = mep.length ∧
    (validate_mep env mep m0 id0).2.1[j]? =
      (mep[j]?).map (fun a => refLabelImage env (id0 + j) a) ∧
    ((validate_mep env mep m0 id0).2.1[j]?).bind refCalcId = some (id0 + j) ∧
    ((validate_mep env mep m0 id0).2.1[j]?).map Atoms.species =
      (mep[j]?).map Atoms.species ∧
    ((validate_mep env mep m0 id0).2.1[j]?).map Atoms.positions =
      (mep[j]?).map Atoms.positions ∧
    ((validate_mep env mep m0 id0).2.1[j]?).map isRefLabeled = some true ∧
    ∀ j', j' < mep.length → j' ≠ j →
      ((validate_mep env mep m0 id0).2.1[j']?).bind refCalcId ≠
        ((validate_mep env mep m0 id0).2.1[j]?).bind refCalcId := by
  have h1 : (validate_mep env mep m0 id0).2.1 = labelImages env id0 mep := rfl
  refine ⟨rfl, ?_, ?_, validate_mep_calcId env mep m0 id0 j hj, ?_, ?_, ?_, ?_⟩
  · rw [h1, labelImages_length]
  · rw [h1, labelImages_getElem?]
  · rw [h1, labelImages_getElem?, List.getElem?_eq_getElem hj]; rfl
  · rw [h1, labelImages_getElem?, List.getElem?_eq_getElem hj]; rfl
  · rw [h1, labelImages_getElem?, List.getElem?_eq_getElem hj]; rfl
  · intro j' hj' hne
    rw [validate_mep_calcId env mep m0 id0 j' hj',
      validate_mep_calcId env mep m0 id0 j hj]
    simp
    omega

/-- Witness for C8: a two-node input list, checked at node 0. -/
theorem validate_mep_spec_witness :
    (validate_mep cEnv [cInitial, cFinal] (AmpModel.mk [0]) 5).2.2 =
      5 + [cInitial, cFinal].length ∧
    (validate_mep cEnv [cInitial, cFinal] (AmpModel.mk [0]) 5).2.1.length =
      [cInitial, cFinal].length ∧
    (validate_mep cEnv [cInitial, cFinal] (AmpModel.mk [0]) 5).2.1[0]? =
      ([cInitial, cFinal][0]?).map (fun a => refLabelImage cEnv (5 + 0) a) ∧
    ((validate_mep cEnv [cInitial, cFinal] (AmpModel.mk [0]) 5).2.1[0]?).bind refCalcId =
      some (5 + 0) ∧
    ((validate_mep cEnv [cInitial, cFinal] (AmpModel.mk [0]) 5).2.1[0]?).map Atoms.species =
      ([cInitial, cFinal][0]?).map Atoms.species ∧
    ((validate_mep cEnv [cInitial, cFinal] (AmpModel.mk [0]) 5).2.1[0]?).map Atoms.positions =
      ([cInitial, cFinal][0]?).map Atoms.positions ∧
    ((validate_mep cEnv [cInitial, cFinal] (AmpModel.mk [0]) 5).2.1[0]?).map isRefLabeled =
      some true ∧
    ∀ j', j' < [cInitial, cFinal].length → j' ≠ 0 →
      ((validate_mep cEnv [cInitial, cFinal] (AmpModel.mk [0]) 5).2.1[j']?).bind refCalcId ≠
        ((validate_mep cEnv [cInitial, cFinal] (AmpModel.mk [0]) 5).2.1[0]?).bind refCalcId :=
  validate_mep_spec cEnv [cInitial, cFinal] (AmpModel.mk [0]) 5 0 (by decide)

/-- Counterexample to C2 as stated: on the concrete non-converging run, the
second iteration (an iteration after the first) starts from the freshly
initialized seed path, which is not the previous iteration's final path:
iteration 0 did not converge and its relaxed interior node moved, yet
iteration 1 rebuilds the seed from initialize_mep. -/
theorem seed_path_reuse_counterexample :
    (iterate cEnv cInp2 (nextState cEnv cInp2 (initState cInp2))).seedMep =
      initialize_mep cInp2.initial_image cInp2.final_image cInp2.num_inter_images ∧
    (iterate cEnv cInp2 (nextState cEnv cInp2 (initState cInp2))).seedMep ≠
      cInp2.initial_image :: ((iterate cEnv cInp2 (initState cInp2)).gathered ++
        [cInp2.final_image]) ∧
    (iterate cEnv cInp2 (initState cInp2)).converged = false := by
  decide

/-- C2 as amended: the seed path is built and broadcast on every iteration,
not on iteration 0 only; the seed never depends on the loop state, so each
iteration restarts from the freshly initialized path and the previous
iteration's final path is discarded (only the training set and hence the
surrogate model carry over). -/
theorem seed_path_rebuilt_every_iteration (env : Env) (inp : Inputs)
    (s s' : LoopState) :
    (iterate env inp s).seedMep =
      initialize_mep inp.initial_image inp.final_image inp.num_inter_images ∧
    (iterate env inp s).seedMep = (iterate env inp s').seedMep :=
  ⟨rfl, rfl⟩

/-- Counterexample to C3 as stated: the concrete run converges on its first
iteration with one interior node, yet its final training set still has the
single configuration the run started with — the claimed growth to
train0.length + n = 2 did not happen on the converging iteration. -/
theorem converged_append_counterexample :
    (Except.toOption (run_aineb cEnv cInp)).map
      (fun r => (r.outcome, r.train_set.length)) = some (Outcome.Converged, 1) ∧
    cInp.train0.length = 1 ∧ cInp.num_inter_images = 1 ∧
    cInp.train0.length + cInp.num_inter_images = 2 := by
  decide

/-- C3 as amended: on a converging iteration the freshly reference-labeled
nodes are not appended to the training set — the loop breaks out before the
append, so the training set leaves the converging iteration unchanged. -/
theorem converged_training_set_unchanged (env : Env) (inp : Inputs) (s : LoopState)
    (h : (iterate env inp s).converged = true) :
    (iterate env inp s).train_set' = s.train_set := by
  rw [iterate_train_set, if_pos h]

/-- Witness for the amended C3: the converging concrete run leaves the
training set of its converging iteration unchanged. -/
theorem converged_training_set_unchanged_witness :
    (iterate cEnv cInp (initState cInp)).train_set' = (initState cInp).train_set :=
  converged_training_set_unchanged cEnv cInp (initState cInp) (by decide)

/-- C4: an iteration that does not converge appends exactly the n freshly
reference-labeled configurations (one per interior node, in gather order)
to the end of the training set, and across any iterations of a run the
training set only ever grows by appending at the end — it never shrinks. -/
theorem training_set_growth (env : Env) (inp : Inputs) (s : LoopState)
    (hs : inp.size = inp.num_inter_images)
    (hnc : (iterate env inp s).converged = false) :
    (iterate env inp s).train_set' = s.train_set ++ (iterate env inp s).ref_images ∧
    (iterate env inp s).ref_images.length = inp.num_inter_images ∧
    (∀ a ∈ (iterate env inp s).ref_images, isRefLabeled a = true) ∧
    ∀ k : Nat, ∃ t : List Atoms,
      (advance env inp s (k + 1)).train_set = (advance env inp s k).train_set ++ t := by
  refine ⟨?_, ?_, ?_, ?_⟩
  · rw [iterate_train_set, if_neg (by simp [hnc])]
  · rw [iterate_ref_images, labelImages_length, iterate_gathered_length, hs]
  · intro a ha
    rw [iterate_ref_images] at ha
    exact labelImages_refLabeled env _ _ a ha
  · intro k
    rw [advance_succ]
    have hn : (nextState env inp (advance env inp s k)).train_set =
        (iterate env inp (advance env inp s k)).train_set' := rfl
    by_cases hck : (iterate env inp (advance env inp s k)).converged = true
    · refine ⟨[], ?_⟩
      rw [hn, iterate_train_set, if_pos hck, List.append_nil]
    · refine ⟨(iterate env inp (advance env inp s k)).ref_images, ?_⟩
      rw [hn, iterate_train_set, if_neg hck]

/-- Witness for C4: the first iteration of the non-converging concrete run
appends its one validated node. -/
theorem training_set_growth_witness :
    (iterate cEnv cInp2 (initState cInp2)).train_set' =
      (initState cInp2).train_set ++ (iterate cEnv cInp2 (initState cInp2)).ref_images ∧
    (iterate cEnv cInp2 (initState cInp2)).ref_images.length = cInp2.num_inter_images ∧
    (∀ a ∈ (iterate cEnv cInp2 (initState cInp2)).ref_images, isRefLabeled a = true) ∧
    ∀ k : Nat, ∃ t : List Atoms,
      (advance cEnv cInp2 (initState cInp2) (k + 1)).train_set =
        (advance cEnv cInp2 (initState cInp2) k).train_set ++ t :=
  training_set_growth cEnv cInp2 (initState cInp2) (by decide) (by decide)

/-- C9: after training, only the calculator label crosses the process
boundary, and every one of the size cooperating processes — the coordinator
included, whose calc_amp variable is rebound by the load — obtains the
model it subsequently uses by loading the persisted artifact of the label,
so all processes hold the identical model; the accuracy report of the
iteration is computed with that reloaded model, not with the live trained
object. -/
theorem model_handle_publish_reload (env : Env) (inp : Inputs) (s : LoopState)
    (j : Nat) (hj : j < inp.size) :
    (iterate env inp s).broadcastLabel = env.ampLabel ∧
    (iterate env inp s).artifact = env.persist (env.train s.train_set) ∧
    (iterate env inp s).calc_amp = env.loadModel (env.persist (env.train s.train_set)) ∧
    (iterate env inp s).rankModels[j]? = some ((iterate env inp s).calc_amp) ∧
    (iterate env inp s).accuracy =
      (validate_mep env (iterate env inp s).gathered
        ((iterate env inp s).calc_amp) s.nextRefId).1 := by
  refine ⟨rfl, rfl, rfl, ?_, rfl⟩
  have h1 : (iterate env inp s).rankModels = (List.range inp.size).map
      (fun _ => env.loadModel (env.persist (env.train s.train_set))) := rfl
  rw [h1, List.getElem?_map]
  have h2 : (List.range inp.size)[j]? = some j := by
    rw [List.getElem?_eq_getElem (by simpa using hj)]
    simp
  rw [h2]
  rfl

/-- Witness for C9: rank 0 of the converging concrete run. -/
theorem model_handle_publish_reload_witness :
    (iterate cEnv cInp (initState cInp)).broadcastLabel = cEnv.ampLabel ∧
    (iterate cEnv cInp (initState cInp)).artifact =
      cEnv.persist (cEnv.train (initState cInp).train_set) ∧
    (iterate cEnv cInp (initState cInp)).calc_amp =
      cEnv.loadModel (cEnv.persist (cEnv.train (initState cInp).train_set)) ∧
    (iterate cEnv cInp (initState cInp)).rankModels[0]? =
      some ((iterate cEnv cInp (initState cInp)).calc_amp) ∧
    (iterate cEnv cInp (initState cInp)).accuracy =
      (validate_mep cEnv (iterate cEnv cInp (initState cInp)).gathered
        ((iterate cEnv cInp (initState cInp)).calc_amp) (initState cInp).nextRefId).1 :=
  model_handle_publish_reload cEnv cInp (initState cInp) 0 (by decide)

/-- C10: with the startup assert in force (size = n), the coordinator
gathers exactly n node copies, the j-th being a copy of the relaxed node at
path index j + 1 — an interior index, since 1 ≤ j + 1 ≤ n while the
endpoints sit at indices 0 and n + 1 of the (n + 2)-long path; validation
is applied to exactly this gathered list (the iteration's validated images
are their labeled copies), and the reference evaluator is instantiated
exactly n times in the iteration, so the endpoints are never re-evaluated
and never enter the accuracy metrics. -/
theorem validation_interior_nodes_only (env : Env) (inp : Inputs) (s : LoopState)
    (j : Nat) (hs : inp.size = inp.num_inter_images) (hj : j < inp.num_inter_images) :
    (iterate env inp s).gathered.length = inp.num_inter_images ∧
    (iterate env inp s).gathered[j]? =
      some (Atoms.copy (env.optNode inp.neb_args
        (iterate env inp s).mepWithCalc (j + 1))) ∧
    1 ≤ j + 1 ∧ j + 1 ≤ inp.num_inter_images ∧
    (iterate env inp s).mepWithCalc.length = inp.num_inter_images + 2 ∧
    (iterate env inp s).ref_images =
      labelImages env s.nextRefId (iterate env inp s).gathered ∧
    (iterate env inp s).nextRefId' = s.nextRefId + inp.num_inter_images := by
  refine ⟨by rw [iterate_gathered_length, hs], ?_, by omega, by omega, ?_, rfl, ?_⟩
  · rw [iterate_gathered, List.getElem?_map]
    have h2 : (List.range inp.size)[j]? = some j := by
      rw [List.getElem?_eq_getElem (by simp; omega)]
      simp
    rw [h2]
    rfl
  · have h3 : (iterate env inp s).mepWithCalc = attachOwned
        (initialize_mep inp.initial_image inp.final_image inp.num_inter_images)
        ((iterate env inp s).calc_amp) inp.size := rfl
    rw [h3]
    simp [attachOwned, initialize_mep]
  · rw [iterate_nextRefId, iterate_gathered_length, hs]

/-- Witness for C10: interior node 1 of the converging concrete run. -/
theorem validation_interior_nodes_only_witness :
    (iterate cEnv cInp (initState cInp)).gathered.length = cInp.num_inter_images ∧
    (iterate cEnv cInp (initState cInp)).gathered[0]? =
      some (Atoms.copy (cEnv.optNode cInp.neb_args
        (iterate cEnv cInp (initState cInp)).mepWithCalc (0 + 1))) ∧
    1 ≤ 0 + 1 ∧ 0 + 1 ≤ cInp.num_inter_images ∧
    (iterate cEnv cInp (initState cInp)).mepWithCalc.length = cInp.num_inter_images + 2 ∧
    (iterate cEnv cInp (initState cInp)).ref_images =
      labelImages cEnv (initState cInp).nextRefId
        (iterate cEnv cInp (initState cInp)).gathered ∧
    (iterate cEnv cInp (initState cInp)).nextRefId' =
      (initState cInp).nextRefId + cInp.num_inter_images :=
  validation_interior_nodes_only cEnv cInp (initState cInp) 0 (by decide) (by decide)

/-- C1: a completed run executes at most max_iteration iterations of the
main loop; it ends Converged exactly when some iteration within the bound
finds all four accuracy metrics at or below their thresholds in the
convergence mapping, and Exhausted exactly otherwise, in which case all
max_iteration iterations were executed. -/
theorem run_aineb_termination (env : Env) (inp : Inputs) (res : RunResult)
    (h : run_aineb env inp = Except.ok res) :
    res.itersExecuted ≤ inp.conv.max_iteration ∧
    (res.outcome = Outcome.Converged ↔
      ∃ k, k < inp.conv.max_iteration ∧ metricsOk (accuracyAt env inp k) inp.conv) ∧
    (res.outcome = Outcome.Exhausted ↔
      ¬ ∃ k, k < inp.conv.max_iteration ∧ metricsOk (accuracyAt env inp k) inp.conv) ∧
    (res.outcome = Outcome.Exhausted → res.itersExecuted = inp.conv.max_iteration) := by
  by_cases hsz : inp.size = inp.num_inter_images
  · unfold run_aineb at h
    rw [if_pos hsz] at h
    have hres := Except.ok.inj h
    subst hres
    dsimp only
    obtain ⟨sp1, sp2, sp3, sp4⟩ := run_loop_spec env inp inp.conv.max_iteration (initState inp)
    have hmo : ∀ k, ((iterate env inp (advance env inp (initState inp) k)).converged = true ↔
        metricsOk (accuracyAt env inp k) inp.conv) := fun k =>
      iterate_converged_iff env inp (advance env inp (initState inp) k)
    by_cases hcv : (run_loop env inp inp.conv.max_iteration (initState inp)).is_converged = true
    · have houtcome :
          (if (run_loop env inp inp.conv.max_iteration (initState inp)).is_converged then
            Outcome.Converged else Outcome.Exhausted) = Outcome.Converged := by
        simp [hcv]
      rw [houtcome]
      refine ⟨sp1, ?_, ?_, ?_⟩
      · constructor
        · intro _
          rcases sp3.mp hcv with ⟨k, hk, hkc⟩
          exact ⟨k, hk, (hmo k).mp hkc⟩
        · intro _; rfl
      · constructor
        · intro hB; exact absurd hB (by simp)
        · intro hn
          exfalso
          apply hn
          rcases sp3.mp hcv with ⟨k, hk, hkc⟩
          exact ⟨k, hk, (hmo k).mp hkc⟩
      · intro hB; exact absurd hB (by simp)
    · have hcvf : (run_loop env inp inp.conv.max_iteration (initState inp)).is_converged = false := by
        revert hcv
        cases (run_loop env inp inp.conv.max_iteration (initState inp)).is_converged <;> simp
      have houtcome :
          (if (run_loop env inp inp.conv.max_iteration (initState inp)).is_converged then
            Outcome.Converged else Outcome.Exhausted) = Outcome.Exhausted := by
        simp [hcvf]
      rw [houtcome]
      refine ⟨sp1, ?_, ?_, ?_⟩
      · constructor
        · intro hB; exact absurd hB (by simp)
        · intro hEx
          exfalso
          rcases hEx with ⟨k, hk, hm⟩
          have hcT := sp3.mpr ⟨k, hk, (hmo k).mpr hm⟩
          rw [hcvf] at hcT
          exact absurd hcT (by simp)
      · constructor
        · intro _ hEx
          rcases hEx with ⟨k, hk, hm⟩
          have hcT := sp3.mpr ⟨k, hk, (hmo k).mpr hm⟩
          rw [hcvf] at hcT
          exact absurd hcT (by simp)
        · intro _; rfl
      · intro _; exact sp2 hcvf
  · unfold run_aineb at h
    rw [if_neg hsz] at h
    exact Except.noConfusion h

/-- Witness for C1: the converging concrete run. -/
theorem run_aineb_termination_witness :
    cRes.itersExecuted ≤ cInp.conv.max_iteration ∧
    (cRes.outcome = Outcome.Converged ↔
      ∃ k, k < cInp.conv.max_iteration ∧ metricsOk (accuracyAt cEnv cInp k) cInp.conv) ∧
    (cRes.outcome = Outcome.Exhausted ↔
      ¬ ∃ k, k < cInp.conv.max_iteration ∧ metricsOk (accuracyAt cEnv cInp k) cInp.conv) ∧
    (cRes.outcome = Outcome.Exhausted → cRes.itersExecuted = cInp.conv.max_iteration) :=
  run_aineb_termination cEnv cInp cRes (by rfl)

/-- C5: a completed run writes mep.traj exactly when it converged, so an
Exhausted run writes no final path; the written path is the initial
endpoint image as read at startup, then the converging iteration's
validated (reference-labeled) interior nodes in gather order, then the
final endpoint image as read at startup, giving length n + 2 with the two
original endpoints at indices 0 and n + 1. -/
theorem final_path_write_spec (env : Env) (inp : Inputs) (res : RunResult)
    (h : run_aineb env inp = Except.ok res) :
    (res.outcome = Outcome.Converged ↔ res.mepFile.isSome = true) ∧
    (res.outcome = Outcome.Exhausted → res.mepFile = none) ∧
    ∀ mf, res.mepFile = some mf →
      ∃ k, k < inp.conv.max_iteration ∧
        (iterate env inp (advance env inp (initState inp) k)).converged = true ∧
        mf = inp.initial_image ::
          ((iterate env inp (advance env inp (initState inp) k)).ref_images ++
            [inp.final_image]) ∧
        mf.length = inp.num_inter_images + 2 ∧
        mf[0]? = some inp.initial_image ∧
        mf[inp.num_inter_images + 1]? = some inp.final_image ∧
        ∀ a ∈ (iterate env inp (advance env inp (initState inp) k)).ref_images,
          isRefLabeled a = true := by
  by_cases hsz : inp.size = inp.num_inter_images
  · unfold run_aineb at h
    rw [if_pos hsz] at h
    have hres := Except.ok.inj h
    subst hres
    dsimp only
    obtain ⟨sp1, sp2, sp3, sp4⟩ := run_loop_spec env inp inp.conv.max_iteration (initState inp)
    by_cases hcv : (run_loop env inp inp.conv.max_iteration (initState inp)).is_converged = true
    · rcases sp4 hcv with ⟨k, hk, hkc, href, _hit⟩
      have hlen : (iterate env inp (advance env inp (initState inp) k)).ref_images.length =
          inp.num_inter_images := by
        rw [iterate_ref_images, labelImages_length, iterate_gathered_length, hsz]
      refine ⟨by simp [hcv], by simp [hcv], ?_⟩
      intro mf hmf
      rw [if_pos hcv] at hmf
      have hmf2 := Option.some.inj hmf
      refine ⟨k, hk, hkc, ?_, ?_, ?_, ?_, ?_⟩
      · rw [← hmf2, href]
      · rw [← hmf2, href]
        simp [hlen]
      · rw [← hmf2]
        simp
      · rw [← hmf2, href, List.getElem?_cons_succ,
          List.getElem?_append_right (by rw [hlen]), hlen]
        simp
      · intro a ha
        rw [iterate_ref_images] at ha
        exact labelImages_refLabeled env _ _ a ha
    · have hcvf :
          (run_loop env inp inp.conv.max_iteration (initState inp)).is_converged = false := by
        revert hcv
        cases (run_loop env inp inp.conv.max_iteration (initState inp)).is_converged <;> simp
      refine ⟨by simp [hcvf], by simp [hcvf], ?_⟩
      intro mf hmf
      rw [if_neg (by simp [hcvf])] at hmf
      exact Option.noConfusion hmf
  · unfold run_aineb at h
    rw [if_neg hsz] at h
    exact Except.noConfusion h

/-- Witness for C5: the converging concrete run and its written path. -/
theorem final_path_write_spec_witness :
    (cRes.outcome = Outcome.Converged ↔ cRes.mepFile.isSome = true) ∧
    (cRes.outcome = Outcome.Exhausted → cRes.mepFile = none) ∧
    ∀ mf, cRes.mepFile = some mf →
      ∃ k, k < cInp.conv.max_iteration ∧
        (iterate cEnv cInp (advance cEnv cInp (initState cInp) k)).converged = true ∧
        mf = cInp.initial_image ::
          ((iterate cEnv cInp (advance cEnv cInp (initState cInp) k)).ref_images ++
            [cInp.final_image]) ∧
        mf.length = cInp.num_inter_images + 2 ∧
        mf[0]? = some cInp.initial_image ∧
        mf[cInp.num_inter_images + 1]? = some cInp.final_image ∧
        ∀ a ∈ (iterate cEnv cInp (advance cEnv cInp (initState cInp) k)).ref_images,
          isRefLabeled a = true :=
  final_path_write_spec cEnv cInp cRes (by rfl)

end Aipes
